import Mathlib

/-!
# JsiSkDataFactory

A shallow embedding of `package/cpp/api/JsiSkDataFactory.h`: the three host
functions `fromURI`, `fromBytes` and `fromBase64` of `RNSkia::JsiSkDataFactory`.

The host functions are marshalling code around collaborators that live outside
the file: the JSI value system, Skia's `SkData`, `SkStreamAsset` and
`SkBase64`, and the platform context (`performStreamOperation`,
`runOnJavascriptThread`).  Storage is an explicit `Memory` of blocks, JSI
values are an inductive type whose accessors can throw, and the asynchronous
path produces the list of events it performs, each tagged with the thread that
performs it.  Where an execution reaches undefined behaviour of C++ (the read
of the uninitialised `len`, a store past the end of a buffer) the embedding
says so and states nothing further about it.
-/

namespace RNSkia

/-! ## Bytes and memory -/

/-- One byte of storage. -/
abbrev Byte := Nat

/-- Memory as a list of blocks; the address of a block is its index.  Both
the backing stores of JavaScript `ArrayBuffer`s and the storage owned by
`SkData` objects live here. -/
structure Memory where
  blocks : List (List Byte)
deriving DecidableEq, Repr

namespace Memory

/-- The bytes of the block at address `a` (empty when there is no such block). -/
def data (m : Memory) (a : Nat) : List Byte :=
  (m.blocks[a]?).getD []

/-- The size of the block at address `a`. -/
def size (m : Memory) (a : Nat) : Nat :=
  (m.data a).length

/-- Allocation of a new block holding `bytes`; returns the new memory and the
address of the block. -/
def alloc (m : Memory) (bytes : List Byte) : Memory × Nat :=
  (⟨m.blocks ++ [bytes]⟩, m.blocks.length)

/-- Overwrites the whole block at address `a`, as a later mutation by
another holder of that block would. -/
def mutate (m : Memory) (a : Nat) (bytes : List Byte) : Memory :=
  ⟨m.blocks.set a bytes⟩

/-- Stores `bytes` through a pointer to the start of block `a`: when they
fit, they replace the leading bytes of the block and the rest of it stays.
The pointer carries no capacity, so a store of more bytes than the block
holds runs past its end; that is undefined behaviour, and there is no memory
to return (`none`). -/
def store (m : Memory) (a : Nat) (bytes : List Byte) : Option Memory :=
  if bytes.length ≤ m.size a then
    some ⟨m.blocks.set a (bytes ++ (m.data a).drop bytes.length)⟩
  else none

end Memory

/-! ## JSI values -/

/-- The failures the JSI accessors used by the factory can raise. -/
inductive JSError where
  /-- `Value::asString` on a value that is not a string. -/
  | notAString
  /-- `Value::asObject` on a value that is not an object. -/
  | notAnObject
  /-- `Object::getArrayBuffer` on an object that is not an `ArrayBuffer`. -/
  | notAnArrayBuffer
deriving DecidableEq, Repr

/-- A `jsi::Value`.  A string is held by the bytes of its UTF-8 encoding, the
`std::string` that `String::utf8` returns.  An object is a property bag; an
`ArrayBuffer` object additionally carries the address of its backing store. -/
inductive Value where
  | undefined
  | null
  | bool (b : Bool)
  | number (n : Nat)
  | string (utf8 : List Byte)
  | object (props : List (String × Value)) (arrayBuffer : Option Nat)

namespace Value

/-- Modelled from the spec: `Value::asString` followed by `String::utf8` of
the host-object runtime (JSI), which is outside the file; it raises on a
value that is not a string. -/
def asString : Value → Except JSError (List Byte)
  | string s => .ok s
  | _ => .error .notAString

/-- Modelled from the spec: `Value::asObject` of the host-object runtime
(JSI), which is outside the file; the result is the object itself, and it
raises on a value that is not an object. -/
def asObject : Value → Except JSError Value
  | object props ab => .ok (object props ab)
  | _ => .error .notAnObject

/-- Modelled from the spec: `Object::getProperty` of the host-object runtime
(JSI), which is outside the file: the named property, `undefined` when
absent. -/
def getProperty : Value → String → Value
  | object props _, name => (props.lookup name).getD undefined
  | _, _ => undefined

/-- Modelled from the spec: `Object::getArrayBuffer` of the host-object
runtime (JSI), which is outside the file: the backing store of an
`ArrayBuffer` object. -/
def getArrayBuffer : Value → Except JSError Nat
  | object _ (some a) => .ok a
  | _ => .error .notAnArrayBuffer

end Value

/-! ## SkData and JsiSkData -/

namespace SkData

/-- Modelled from the spec: `SkData::MakeWithCopy(ptr, length)` of the
byte-buffer library (Skia), which is outside the file: a new block holding a
copy of the `length` bytes at `ptr`.  Here `ptr` points at the start of block
`src`. -/
def MakeWithCopy (m : Memory) (src : Nat) (length : Nat) : Memory × Nat :=
  m.alloc ((m.data src).take length)

end SkData

/-- The host object `JsiSkData` built by `std::make_shared<JsiSkData>(context,
data)`: it wraps an `sk_sp<SkData>`, the address of the data block or `none`
for a null pointer.  The context it also holds plays no part here. -/
structure JsiSkData where
  data : Option Nat
deriving DecidableEq, Repr

/-- The bytes of the buffer wrapped by a data object (`none` when it wraps a
null pointer). -/
def JsiSkData.bytes (m : Memory) (o : JsiSkData) : Option (List Byte) :=
  o.data.map m.data

/-! ## fromBytes -/

/-- `JsiSkDataFactory::fromBytes` (lines 40-51), applied to `arguments[0]`. -/
def fromBytes (m : Memory) (arg0 : Value) : Except JSError (Memory × JsiSkData) := do
  let array ← arg0.asObject
  let buffer ← (← (array.getProperty "buffer").asObject).getArrayBuffer
  let (m1, data) := SkData.MakeWithCopy m buffer (m.size buffer)
  pure (m1, ⟨some data⟩)

/-- A typed-array view as JavaScript builds it: an object whose `buffer`
property is the `ArrayBuffer` at address `a`, with the window
`byteOffset`, `byteLength` over it. -/
def typedArray (a : Nat) (byteOffset byteLength : Nat) : Value :=
  .object [("buffer", .object [] (some a)),
           ("byteOffset", .number byteOffset),
           ("byteLength", .number byteLength)] none

/-- The bytes a typed-array view denotes: the window of its backing store. -/
def viewBytes (m : Memory) (a : Nat) (byteOffset byteLength : Nat) : List Byte :=
  ((m.data a).drop byteOffset).take byteLength

/-! ## fromBase64 -/

/-- How a host function ends when it does not return a value. -/
inductive Fault where
  /-- An exception raised by a JSI accessor and thrown to the caller. -/
  | jsError (e : JSError)
  /-- The execution reached undefined behaviour of C++ (the read of a variable
  nothing has initialised, a store past the end of a buffer).  From there on
  nothing is guaranteed: neither a result, nor a failure, nor which one. -/
  | undefinedBehaviour
deriving DecidableEq, Repr

/-- The bytes of a block that `SkData::MakeUninitialized` has just allocated,
which C++ leaves indeterminate. -/
structure Indeterminate where
  byte : Nat → Byte

/-- Modelled from the spec: `SkData::MakeUninitialized(length)` of the
byte-buffer library (Skia), which is outside the file: a new block sized
exactly to `length` bytes, whose content is indeterminate.  It is only ever
applied to a length that has been stored; exhaustion of memory by the
platform is not part of the model. -/
def SkData.MakeUninitialized (u : Indeterminate) (m : Memory) (length : Nat) : Memory × Nat :=
  m.alloc ((List.range length).map u.byte)

namespace SkBase64

/-- The status `SkBase64::Decode` returns. -/
inductive Error where
  | kNoError
  | kPadError
  | kBadCharError
deriving DecidableEq, Repr

/-- What one call `SkBase64::Decode(src, srcLength, dst, &dstLength)` does:
the status it returns, the bytes it stores through `dst`, and the value it
stores through `dstLength` (`none` when it stores nothing there). -/
structure Result where
  error : Error
  dst : List Byte
  dstLength : Option Nat
deriving DecidableEq, Repr

end SkBase64

/-- The base64 decoder `SkBase64`, a collaborator outside the file, taken as
a parameter.  `Decode` is given the source text, its length and whether `dst`
is the null pointer. -/
structure SkBase64 where
  Decode : (src : List Byte) → (srcLength : Nat) → (dstIsNull : Bool) → SkBase64.Result

/-- `JsiSkDataFactory::fromBase64` (lines 53-69), applied to `arguments[0]`.
The status returned by either call of `Decode` is dropped, and the second
store through `&len` is dead.  The local `len` is declared without a value
(line 59): when the first pass stores nothing through `&len`, the read of
`len` at line 63 is undefined behaviour.  The second pass stores through
`data->writable_data()` with no bound (line 64). -/
def fromBase64 (codec : SkBase64) (u : Indeterminate) (m : Memory) (arg0 : Value) :
    Except Fault (Memory × JsiSkData) :=
  match arg0.asString with
  | .error e => .error (.jsError e)
  | .ok base64Str =>
    let size := base64Str.length
    -- Calculate length
    match (codec.Decode base64Str size true).dstLength with
    | none => .error .undefinedBehaviour
    | some len =>
      -- Create data object and decode
      let r := SkData.MakeUninitialized u m len
      match r.1.store r.2 (codec.Decode base64Str size false).dst with
      | none => .error .undefinedBehaviour
      | some m2 => .ok (m2, ⟨some r.2⟩)

/-- The codec with the status of every `Decode` call replaced by `status`;
what it stores through `dst` and `dstLength` is unchanged. -/
def SkBase64.withStatus (codec : SkBase64)
    (status : List Byte → Nat → Bool → SkBase64.Error) : SkBase64 where
  Decode src srcLength dstIsNull :=
    ⟨status src srcLength dstIsNull, (codec.Decode src srcLength dstIsNull).dst,
      (codec.Decode src srcLength dstIsNull).dstLength⟩

/-- The codec contract "`s` is valid base64 for `bytes`": both passes report
`kNoError`, both store the decoded length, and the pass with a destination
stores `bytes`. -/
def SkBase64.Decodes (codec : SkBase64) (s : List Byte) (bytes : List Byte) : Prop :=
  (codec.Decode s s.length true).error = .kNoError ∧
  (codec.Decode s s.length true).dstLength = some bytes.length ∧
  (codec.Decode s s.length false).error = .kNoError ∧
  (codec.Decode s s.length false).dstLength = some bytes.length ∧
  (codec.Decode s s.length false).dst = bytes

/-! ### A reference codec -/

/-- The bytes of an ASCII text. -/
def ascii (s : String) : List Byte :=
  s.toList.map Char.toNat

/-- Modelled from the spec: the value of one character of the base64
alphabet (`A-Z`, `a-z`, `0-9`, `+`, `/`); the codec `SkBase64` is outside
the file. -/
def base64Value (c : Byte) : Option Nat :=
  if 65 ≤ c ∧ c ≤ 90 then some (c - 65)
  else if 97 ≤ c ∧ c ≤ 122 then some (c - 71)
  else if 48 ≤ c ∧ c ≤ 57 then some (c + 4)
  else if c = 43 then some 62
  else if c = 47 then some 63
  else none

/-- Modelled from the spec: the character of a six-bit value; the codec
`SkBase64` is outside the file. -/
def base64Char (v : Nat) : Byte :=
  if v < 26 then v + 65
  else if v < 52 then v + 71
  else if v < 62 then v - 4
  else if v = 62 then 43
  else 47

/-- Modelled from the spec: base64 encoding of a byte sequence with `=`
padding (the `decodeToBase64` of the round-trip property); the codec is
outside the file. -/
def encodeBase64 : List Byte → List Byte
  | [] => []
  | [a] => [base64Char (a / 4), base64Char (a % 4 * 16), 61, 61]
  | [a, b] => [base64Char (a / 4), base64Char (a % 4 * 16 + b / 16), base64Char (b % 16 * 4), 61]
  | a :: b :: c :: rest =>
    base64Char (a / 4) :: base64Char (a % 4 * 16 + b / 16) ::
      base64Char (b % 16 * 4 + c / 64) :: base64Char (c % 64) :: encodeBase64 rest

/-- Modelled from the spec: base64 decoding of a text, four characters at a
time, failing on a character outside the alphabet or on bad padding; the
codec `SkBase64` is outside the file. -/
def decodeBase64 : List Byte → Except SkBase64.Error (List Byte)
  | [] => .ok []
  | a :: b :: c :: d :: rest =>
    match base64Value a, base64Value b with
    | some x, some y =>
      if c = 61 ∧ d = 61 ∧ rest = [] then .ok [x * 4 + y / 16]
      else
        match base64Value c with
        | some z =>
          if d = 61 ∧ rest = [] then .ok [x * 4 + y / 16, y % 16 * 16 + z / 4]
          else
            match base64Value d with
            | some w =>
              match decodeBase64 rest with
              | .ok bytes => .ok ([x * 4 + y / 16, y % 16 * 16 + z / 4, z % 4 * 64 + w] ++ bytes)
              | .error e => .error e
            | none => .error .kBadCharError
        | none => .error .kBadCharError
    | _, _ => .error .kBadCharError
  | _ => .error .kPadError

/-- Modelled from the spec: `SkBase64::Decode` as the two-pass decoder the
spec describes; the codec is outside the file.  On success it stores the decoded
length through `dstLength` and, when `dst` is not null, the decoded bytes
through `dst`; on failure it returns the error and stores nothing. -/
def skBase64 : SkBase64 where
  Decode src srcLength dstIsNull :=
    match decodeBase64 (src.take srcLength) with
    | .ok bytes => ⟨.kNoError, if dstIsNull then [] else bytes, some bytes.length⟩
    | .error e => ⟨e, [], none⟩

/-! ## fromURI -/

/-- The threads of the asynchronous path: the JavaScript thread, on which
host-object values may be built, and the thread on which the platform runs
stream operations. -/
inductive Thread where
  | javascript
  | worker
deriving DecidableEq, Repr

/-- Modelled from the spec: an `SkStreamAsset` of the stream library (Skia),
which is outside the file, as the stream callback uses it: its length, and
the bytes a `read` of a given size delivers (fewer than asked when the stream
cannot be read in full). -/
structure SkStreamAsset where
  getLength : Nat
  read : Nat → List Byte

/-- Modelled from the spec: `SkData::MakeFromStream(stream, size)` of the
byte-buffer library (Skia), which is outside the file: the stream is
materialised into a new block of the `size` bytes read from it; a stream that
cannot be read in full gives no block, the null pointer. -/
def SkData.MakeFromStream (m : Memory) (stream : SkStreamAsset) (size : Nat) :
    Memory × Option Nat :=
  let bytes := (stream.read size).take size
  if bytes.length = size then ((m.alloc bytes).1, some (m.alloc bytes).2) else (m, none)

/-- What the asynchronous path does, each step tagged with the thread that
performs it.  `reject` is the promise's other settlement; the path has no
statement that performs it. -/
inductive Event where
  /-- `react::createPromiseAsJSIValue`. -/
  | createPromise (t : Thread)
  /-- The call `context->performStreamOperation(localUri, ...)`. -/
  | performStreamOperation (t : Thread) (sourceUri : List Byte)
  /-- `SkData::MakeFromStream`, with the pointer it returned. -/
  | MakeFromStream (t : Thread) (result : Option Nat)
  /-- The call `context->runOnJavascriptThread(...)` that posts the closure. -/
  | runOnJavascriptThread (t : Thread)
  /-- `jsi::Object::createFromHostObject` on a new `JsiSkData`. -/
  | createFromHostObject (t : Thread) (object : JsiSkData)
  /-- `promise->resolve`. -/
  | resolve (t : Thread) (object : JsiSkData)
  /-- `promise->reject`. -/
  | reject (t : Thread) (message : List Byte)
deriving DecidableEq, Repr

namespace Event

/-- The thread that performs the event. -/
def thread : Event → Thread
  | createPromise t => t
  | performStreamOperation t _ => t
  | MakeFromStream t _ => t
  | runOnJavascriptThread t => t
  | createFromHostObject t _ => t
  | resolve t _ => t
  | reject t _ => t

/-- The event wraps a buffer into a host object. -/
def isWrap : Event → Bool
  | createFromHostObject _ _ => true
  | _ => false

/-- The event resolves the promise. -/
def isResolve : Event → Bool
  | resolve _ _ => true
  | _ => false

/-- The event rejects the promise. -/
def isReject : Event → Bool
  | reject _ _ => true
  | _ => false

/-- The event settles the promise, by `resolve` or by `reject`. -/
def isSettle (e : Event) : Bool :=
  e.isResolve || e.isReject

end Event

/-- The platform context `RNSkPlatformContext`, a collaborator outside the
file, taken as a parameter and given by what it does with the callbacks it is
handed.
`performStreamOperation` gives, for a source URI, the streams with which it
invokes the stream callback, one per invocation: none when the stream cannot
be opened.  The callback dereferences the stream unconditionally, so every
stream it is invoked with is an opened one.  `runOnJavascriptThread` is the
number of times the hand-off runs a closure posted to it. -/
structure RNSkPlatformContext where
  performStreamOperation : List Byte → List SkStreamAsset
  runOnJavascriptThread : Nat

/-- The closure posted to the JavaScript thread (lines 29-35), run on thread
`t`. -/
def resolveClosure (t : Thread) (result : Option Nat) : List Event :=
  [.createFromHostObject t ⟨result⟩, .resolve t ⟨result⟩]

/-- The stream callback (lines 24-36), run on thread `t` with an opened
stream.  The hand-off runs the posted closure on the JavaScript thread. -/
def streamCallback (context : RNSkPlatformContext) (t : Thread) (m : Memory)
    (stream : SkStreamAsset) : Memory × List Event :=
  let r := SkData.MakeFromStream m stream stream.getLength
  (r.1, [.MakeFromStream t r.2, .runOnJavascriptThread t] ++
    (List.replicate context.runOnJavascriptThread (resolveClosure .javascript r.2)).flatten)

/-- The invocations of the stream callback by `performStreamOperation`, each
on the worker thread. -/
def streamOperations (context : RNSkPlatformContext) (m : Memory) :
    List SkStreamAsset → Memory × List Event
  | [] => (m, [])
  | stream :: rest =>
    let r := streamCallback context .worker m stream
    let rs := streamOperations context r.1 rest
    (rs.1, r.2 ++ rs.2)

/-- `JsiSkDataFactory::fromURI` (lines 12-38), applied to `arguments[0]` on the
JavaScript thread: the memory and the events of the execution. -/
def fromURI (context : RNSkPlatformContext) (m : Memory) (arg0 : Value) :
    Except JSError (Memory × List Event) := do
  let localUri ← arg0.asString
  let r := streamOperations context m (context.performStreamOperation localUri)
  pure (r.1, [.createPromise .javascript, .performStreamOperation .javascript localUri] ++ r.2)

/-- The number of settlements of the promise in an execution. -/
def settlements (events : List Event) : Nat :=
  events.countP Event.isSettle

/-- The number of rejections of the promise in an execution. -/
def rejections (events : List Event) : Nat :=
  events.countP Event.isReject

/-- A stream over `content` that is read from its start. -/
def memoryStream (content : List Byte) : SkStreamAsset :=
  ⟨content.length, fun n => content.take n⟩

/-- A stream that announces `length` bytes and delivers none. -/
def brokenStream (length : Nat) : SkStreamAsset :=
  ⟨length, fun _ => []⟩

/-! ## Memory lemmas -/

theorem Memory.data_alloc_new (m : Memory) (bytes : List Byte) :
    (m.alloc bytes).1.data (m.alloc bytes).2 = bytes := by
  simp [Memory.alloc, Memory.data]

theorem Memory.data_mutate_alloc (m : Memory) (x bytes : List Byte) (a : Nat)
    (ha : a < m.blocks.length) :
    ((m.alloc x).1.mutate a bytes).data (m.alloc x).2 = x := by
  have hne : a ≠ m.blocks.length := Nat.ne_of_lt ha
  simp [Memory.alloc, Memory.data, Memory.mutate, List.getElem?_set_ne hne]

theorem Memory.data_mutate_self (m : Memory) (bytes : List Byte) (a : Nat)
    (ha : a < m.blocks.length) : (m.mutate a bytes).data a = bytes := by
  simp [Memory.data, Memory.mutate, ha]

/-! ## fromBytes lemmas -/

theorem fromBytes_object (m : Memory) (props p : List (String × Value)) (ab : Option Nat)
    (a : Nat) (h : props.lookup "buffer" = some (.object p (some a))) :
    fromBytes m (.object props ab)
      = .ok ((m.alloc (m.data a)).1, ⟨some (m.alloc (m.data a)).2⟩) := by
  simp [fromBytes, Value.asObject, Value.getProperty, Value.getArrayBuffer, h,
    SkData.MakeWithCopy, Memory.size, bind, Except.bind, pure, Except.pure]

/-! ## The reference codec inverts its encoder -/

theorem base64Value_base64Char (v : Nat) (h : v < 64) : base64Value (base64Char v) = some v := by
  interval_cases v <;> rfl

theorem base64Char_ne_pad (v : Nat) (h : v < 64) : base64Char v ≠ 61 := by
  interval_cases v <;> decide

theorem base64_arith (a b c : Nat) (ha : a < 256) (hb : b < 256) (hc : c < 256) :
    a / 4 < 64 ∧ a % 4 * 16 < 64 ∧ a % 4 * 16 + b / 16 < 64 ∧ b % 16 * 4 < 64 ∧
    b % 16 * 4 + c / 64 < 64 ∧ c % 64 < 64 ∧
    a / 4 * 4 + a % 4 * 16 / 16 = a ∧
    a / 4 * 4 + (a % 4 * 16 + b / 16) / 16 = a ∧
    (a % 4 * 16 + b / 16) % 16 * 16 + b % 16 * 4 / 4 = b ∧
    (a % 4 * 16 + b / 16) % 16 * 16 + (b % 16 * 4 + c / 64) / 4 = b ∧
    (b % 16 * 4 + c / 64) % 4 * 64 + c % 64 = c ∧
    a / 4 * 4 + a % 4 = a ∧
    (a % 4 * 16 + b / 16) % 16 * 16 + b % 16 = b := by
  omega

theorem decodeBase64_encodeBase64 (raw : List Byte) (h : ∀ b ∈ raw, b < 256) :
    decodeBase64 (encodeBase64 raw) = .ok raw := by
  induction raw using encodeBase64.induct with
  | case1 => rfl
  | case2 a =>
    obtain ⟨h1, h2, -, -, -, -, -, -, -, -, -, e1, -⟩ :=
      base64_arith a 0 0 (h a (by simp)) (by decide) (by decide)
    simp only [encodeBase64, decodeBase64, base64Value_base64Char _ h1,
      base64Value_base64Char _ h2]
    simp [e1]
  | case3 a b =>
    obtain ⟨h1, -, h2, h3, -, -, -, e1, -, -, -, -, e2⟩ :=
      base64_arith a b 0 (h a (by simp)) (h b (by simp)) (by decide)
    simp only [encodeBase64, decodeBase64, base64Value_base64Char _ h1,
      base64Value_base64Char _ h2, base64Value_base64Char _ h3]
    simp [base64Char_ne_pad _ h3, e1, e2]
  | case4 a b c rest ih =>
    obtain ⟨h1, -, h2, -, h3, h4, -, e1, -, e2, e3, -, -⟩ :=
      base64_arith a b c (h a (by simp)) (h b (by simp)) (h c (by simp))
    have ih2 := ih (fun x hx => h x (by simp [hx]))
    simp only [encodeBase64, decodeBase64, base64Value_base64Char _ h1,
      base64Value_base64Char _ h2, base64Value_base64Char _ h3, base64Value_base64Char _ h4, ih2]
    simp [base64Char_ne_pad _ h3, base64Char_ne_pad _ h4, e1, e2, e3]

theorem skBase64_decodes_encodeBase64 (raw : List Byte) (h : ∀ b ∈ raw, b < 256) :
    skBase64.Decodes (encodeBase64 raw) raw := by
  simp [SkBase64.Decodes, skBase64, decodeBase64_encodeBase64 raw h]

/-! ## fromBase64 lemmas -/

theorem Memory.store_alloc (m : Memory) (x bytes : List Byte)
    (h : bytes.length ≤ x.length) :
    (m.alloc x).1.store (m.alloc x).2 bytes
      = some ⟨m.blocks ++ [bytes ++ x.drop bytes.length]⟩ := by
  simp [Memory.alloc, Memory.store, Memory.size, Memory.data, h]

theorem fromBase64_string (codec : SkBase64) (u : Indeterminate) (m : Memory) (s : List Byte)
    (n : Nat) (h1 : (codec.Decode s s.length true).dstLength = some n)
    (h2 : (codec.Decode s s.length false).dst.length ≤ n) :
    fromBase64 codec u m (.string s)
      = .ok (⟨m.blocks ++ [(codec.Decode s s.length false).dst ++
                ((List.range n).map u.byte).drop (codec.Decode s s.length false).dst.length]⟩,
             ⟨some m.blocks.length⟩) := by
  have hs := Memory.store_alloc m ((List.range n).map u.byte)
    (codec.Decode s s.length false).dst (by simpa using h2)
  simp only [fromBase64, Value.asString, h1, SkData.MakeUninitialized, hs]
  simp [Memory.alloc]

theorem fromBase64_bytes (codec : SkBase64) (u : Indeterminate) (m : Memory) (s : List Byte)
    (n : Nat) (h1 : (codec.Decode s s.length true).dstLength = some n)
    (h2 : (codec.Decode s s.length false).dst.length = n) :
    ∃ m1 d, fromBase64 codec u m (.string s) = .ok (m1, d) ∧
      d.bytes m1 = some (codec.Decode s s.length false).dst := by
  refine ⟨_, _, fromBase64_string codec u m s n h1 (Nat.le_of_eq h2), ?_⟩
  simp [JsiSkData.bytes, Memory.data, h2]

/-! ## fromURI lemmas -/

theorem fromURI_string (context : RNSkPlatformContext) (m : Memory) (uri : List Byte) :
    fromURI context m (.string uri)
      = .ok ((streamOperations context m (context.performStreamOperation uri)).1,
          [.createPromise .javascript, .performStreamOperation .javascript uri] ++
            (streamOperations context m (context.performStreamOperation uri)).2) := by
  simp [fromURI, Value.asString, bind, Except.bind, pure, Except.pure]

theorem countP_flatten_replicate (q : Event → Bool) (n : Nat) (l : List Event) :
    (List.replicate n l).flatten.countP q = n * l.countP q := by
  induction n with
  | zero => simp
  | succ k ih => simp [List.replicate_succ, List.countP_append, ih, Nat.succ_mul, Nat.add_comm]

theorem settlements_streamCallback (context : RNSkPlatformContext) (t : Thread) (m : Memory)
    (stream : SkStreamAsset) :
    settlements (streamCallback context t m stream).2 = context.runOnJavascriptThread := by
  simp [settlements, streamCallback, List.countP_cons, List.countP_append,
    countP_flatten_replicate, resolveClosure, Event.isSettle, Event.isResolve, Event.isReject]

theorem rejections_streamCallback (context : RNSkPlatformContext) (t : Thread) (m : Memory)
    (stream : SkStreamAsset) :
    rejections (streamCallback context t m stream).2 = 0 := by
  simp [rejections, streamCallback, List.countP_cons, List.countP_append,
    countP_flatten_replicate, resolveClosure, Event.isReject]

theorem settlements_streamOperations (context : RNSkPlatformContext) (m : Memory)
    (streams : List SkStreamAsset) :
    settlements (streamOperations context m streams).2
      = streams.length * context.runOnJavascriptThread := by
  induction streams generalizing m with
  | nil => simp [streamOperations, settlements]
  | cons stream rest ih =>
    have h := settlements_streamCallback context .worker m stream
    have h2 := ih (streamCallback context .worker m stream).1
    simp only [settlements] at h h2 ⊢
    simp only [streamOperations, List.countP_append, h, h2, List.length_cons]
    rw [Nat.succ_mul, Nat.add_comm]

theorem rejections_streamOperations (context : RNSkPlatformContext) (m : Memory)
    (streams : List SkStreamAsset) :
    rejections (streamOperations context m streams).2 = 0 := by
  induction streams generalizing m with
  | nil => simp [streamOperations, rejections]
  | cons stream rest ih =>
    have h := rejections_streamCallback context .worker m stream
    have h2 := ih (streamCallback context .worker m stream).1
    simp only [rejections] at h h2 ⊢
    simp only [streamOperations, List.countP_append, h, h2]

theorem settlements_fromURI_events (uri : List Byte) (events : List Event) :
    settlements ([.createPromise .javascript, .performStreamOperation .javascript uri] ++ events)
      = settlements events := by
  simp [settlements, List.countP_cons, Event.isSettle, Event.isResolve, Event.isReject]

theorem rejections_fromURI_events (uri : List Byte) (events : List Event) :
    rejections ([.createPromise .javascript, .performStreamOperation .javascript uri] ++ events)
      = rejections events := by
  simp [rejections, List.countP_cons, Event.isReject]

theorem thread_streamCallback (context : RNSkPlatformContext) (t : Thread) (m : Memory)
    (stream : SkStreamAsset) (e : Event) (he : e ∈ (streamCallback context t m stream).2)
    (h : e.isWrap = true ∨ e.isResolve = true) : e.thread = .javascript := by
  simp only [streamCallback, List.mem_append, List.mem_cons, List.mem_flatten,
    List.mem_replicate, List.mem_singleton, List.not_mem_nil, or_false] at he
  rcases he with (rfl | rfl) | ⟨l, ⟨_, rfl⟩, hl⟩
  · simp [Event.isWrap, Event.isResolve] at h
  · simp [Event.isWrap, Event.isResolve] at h
  · simp only [resolveClosure, List.mem_cons, List.mem_singleton, List.not_mem_nil,
      or_false] at hl
    rcases hl with rfl | rfl <;> rfl

theorem thread_streamOperations (context : RNSkPlatformContext) (m : Memory)
    (streams : List SkStreamAsset) (e : Event)
    (he : e ∈ (streamOperations context m streams).2)
    (h : e.isWrap = true ∨ e.isResolve = true) : e.thread = .javascript := by
  induction streams generalizing m with
  | nil => simp [streamOperations] at he
  | cons stream rest ih =>
    simp only [streamOperations, List.mem_append] at he
    rcases he with he | he
    · exact thread_streamCallback context .worker m stream e he h
    · exact ih _ he

/-! ## fromBytes -/

/-- C10: `fromBytes` copies the whole backing `ArrayBuffer` found in the
`buffer` property of its argument and reads nothing else of it: the returned
buffer is a new block whose content is the whole backing store, whose length
is the backing store's size, and two argument objects over the same
`ArrayBuffer` (whatever their other properties, such as the window) give the
same result. -/
theorem fromBytes_copies_whole_backing_buffer (m : Memory)
    (props1 props2 p : List (String × Value)) (ab1 ab2 : Option Nat) (a : Nat)
    (h1 : props1.lookup "buffer" = some (.object p (some a)))
    (h2 : props2.lookup "buffer" = some (.object p (some a))) :
    ∃ m1 d, fromBytes m (.object props1 ab1) = .ok (m1, d) ∧
      d.bytes m1 = some (m.data a) ∧
      (d.bytes m1).map List.length = some (m.size a) ∧
      fromBytes m (.object props2 ab2) = fromBytes m (.object props1 ab1) := by
  refine ⟨_, _, fromBytes_object m props1 p ab1 a h1, ?_, ?_, ?_⟩
  · simp [JsiSkData.bytes, Memory.data_alloc_new]
  · simp [JsiSkData.bytes, Memory.data_alloc_new, Memory.size]
  · rw [fromBytes_object m props1 p ab1 a h1, fromBytes_object m props2 p ab2 a h2]

/-- Witness for C10: two views with different windows over the eight bytes of
the PNG signature. -/
theorem fromBytes_copies_whole_backing_buffer_witness :
    ∃ m1 d, fromBytes ⟨[[137, 80, 78, 71, 13, 10, 26, 10]]⟩ (typedArray 0 0 8) = .ok (m1, d) ∧
      d.bytes m1 = some ((⟨[[137, 80, 78, 71, 13, 10, 26, 10]]⟩ : Memory).data 0) ∧
      (d.bytes m1).map List.length = some ((⟨[[137, 80, 78, 71, 13, 10, 26, 10]]⟩ : Memory).size 0) ∧
      fromBytes ⟨[[137, 80, 78, 71, 13, 10, 26, 10]]⟩ (typedArray 0 4 2)
        = fromBytes ⟨[[137, 80, 78, 71, 13, 10, 26, 10]]⟩ (typedArray 0 0 8) :=
  fromBytes_copies_whole_backing_buffer ⟨[[137, 80, 78, 71, 13, 10, 26, 10]]⟩
    _ _ [] none none 0 rfl rfl

/-- Counterexample to C1 as stated: for the view of bytes 4 and 5 of the
eight-byte PNG signature, `fromBytes` returns a buffer of length 8 holding the
whole backing store, not the two bytes of the view. -/
theorem fromBytes_view_counterexample :
    4 + 2 ≤ (⟨[[137, 80, 78, 71, 13, 10, 26, 10]]⟩ : Memory).size 0 ∧
    viewBytes ⟨[[137, 80, 78, 71, 13, 10, 26, 10]]⟩ 0 4 2 = [13, 10] ∧
    ∃ m1 d, fromBytes ⟨[[137, 80, 78, 71, 13, 10, 26, 10]]⟩ (typedArray 0 4 2) = .ok (m1, d) ∧
      d.bytes m1 = some [137, 80, 78, 71, 13, 10, 26, 10] ∧
      d.bytes m1 ≠ some (viewBytes ⟨[[137, 80, 78, 71, 13, 10, 26, 10]]⟩ 0 4 2) ∧
      (d.bytes m1).map List.length ≠ some 2 := by
  refine ⟨by decide, by decide, _, _, rfl, by decide, by decide, by decide⟩

/-- C1, amended: for every byte array view that covers its whole backing
`ArrayBuffer` (byte offset 0, byte length the size of the buffer),
`fromBytes` returns a data object whose buffer has the length of the view and
byte for byte the content of the view. -/
theorem fromBytes_whole_view (m : Memory) (a byteOffset byteLength : Nat)
    (hoff : byteOffset = 0) (hlen : byteLength = m.size a) :
    ∃ m1 d, fromBytes m (typedArray a byteOffset byteLength) = .ok (m1, d) ∧
      d.bytes m1 = some (viewBytes m a byteOffset byteLength) ∧
      (d.bytes m1).map List.length = some byteLength := by
  subst hoff hlen
  refine ⟨_, _, fromBytes_object m _ [] none a rfl, ?_, ?_⟩
  · simp [JsiSkData.bytes, Memory.data_alloc_new, viewBytes, Memory.size]
  · simp [JsiSkData.bytes, Memory.data_alloc_new, Memory.size]

/-- Witness for C1, amended: the view of all eight bytes of the PNG
signature. -/
theorem fromBytes_whole_view_witness :
    ∃ m1 d, fromBytes ⟨[[137, 80, 78, 71, 13, 10, 26, 10]]⟩ (typedArray 0 0 8) = .ok (m1, d) ∧
      d.bytes m1 = some (viewBytes ⟨[[137, 80, 78, 71, 13, 10, 26, 10]]⟩ 0 0 8) ∧
      (d.bytes m1).map List.length = some 8 :=
  fromBytes_whole_view ⟨[[137, 80, 78, 71, 13, 10, 26, 10]]⟩ 0 0 8 rfl rfl

/-- C8: the buffer returned by `fromBytes` is a copy in storage of its own:
it holds the content the backing store had at the call, and after any later
mutation of that backing store (which does change the backing store) the
returned buffer still holds the content it was given. -/
theorem fromBytes_deep_copy (m : Memory) (props p : List (String × Value))
    (ab : Option Nat) (a : Nat)
    (h : props.lookup "buffer" = some (.object p (some a)))
    (ha : a < m.blocks.length) :
    ∃ m1 d, fromBytes m (.object props ab) = .ok (m1, d) ∧
      d.bytes m1 = some (m.data a) ∧
      ∀ bytes : List Byte,
        (m1.mutate a bytes).data a = bytes ∧
        d.bytes (m1.mutate a bytes) = some (m.data a) := by
  refine ⟨_, _, fromBytes_object m props p ab a h, ?_, ?_⟩
  · simp [JsiSkData.bytes, Memory.data_alloc_new]
  · intro bytes
    constructor
    · apply Memory.data_mutate_self
      simp [Memory.alloc]
      omega
    · simp [JsiSkData.bytes, Memory.data_mutate_alloc m _ bytes a ha]

/-- Witness for C8: the four leading bytes of the PNG signature. -/
theorem fromBytes_deep_copy_witness :
    ∃ m1 d, fromBytes ⟨[[137, 80, 78, 71]]⟩ (typedArray 0 0 4) = .ok (m1, d) ∧
      d.bytes m1 = some ((⟨[[137, 80, 78, 71]]⟩ : Memory).data 0) ∧
      ∀ bytes : List Byte,
        (m1.mutate 0 bytes).data 0 = bytes ∧
        d.bytes (m1.mutate 0 bytes) = some ((⟨[[137, 80, 78, 71]]⟩ : Memory).data 0) :=
  fromBytes_deep_copy ⟨[[137, 80, 78, 71]]⟩ _ [] none 0 rfl (by decide)

/-! ## fromBase64 -/

/-- C7: for every valid base64 string (the codec decodes it, to some
`bytes`), `fromBase64` runs the two passes on the same text and length and
returns a buffer whose length is the decoded length stored by the first pass
and whose content is the bytes stored by the second pass. -/
theorem fromBase64_two_pass (codec : SkBase64) (u : Indeterminate) (m : Memory)
    (s bytes : List Byte) (h : codec.Decodes s bytes) :
    ∃ m1 d, fromBase64 codec u m (.string s) = .ok (m1, d) ∧
      (d.bytes m1).map List.length = (codec.Decode s s.length true).dstLength ∧
      d.bytes m1 = some (codec.Decode s s.length false).dst := by
  obtain ⟨_, hlen, _, _, hdst⟩ := h
  obtain ⟨m1, d, hr, hb⟩ := fromBase64_bytes codec u m s bytes.length hlen (by rw [hdst])
  exact ⟨m1, d, hr, by rw [hb, hlen, hdst]; rfl, hb⟩

/-- Witness for C7: the reference codec on the base64 text of the PNG
signature. -/
theorem fromBase64_two_pass_witness :
    ∃ m1 d, fromBase64 skBase64 ⟨fun _ => 0⟩ ⟨[]⟩ (.string (ascii "iVBORw0KGgo=")) = .ok (m1, d) ∧
      (d.bytes m1).map List.length
        = (skBase64.Decode (ascii "iVBORw0KGgo=") (ascii "iVBORw0KGgo=").length true).dstLength ∧
      d.bytes m1
        = some (skBase64.Decode (ascii "iVBORw0KGgo=") (ascii "iVBORw0KGgo=").length false).dst :=
  fromBase64_two_pass skBase64 ⟨fun _ => 0⟩ ⟨[]⟩ (ascii "iVBORw0KGgo=")
    [137, 80, 78, 71, 13, 10, 26, 10] (by unfold SkBase64.Decodes; decide)

/-- C2: for every byte sequence `raw` whose base64 encoding the codec decodes
back to `raw` (decode undoes encode), `fromBase64` applied to that encoding
returns a data object whose buffer content is exactly `raw`. -/
theorem fromBase64_roundtrip (codec : SkBase64) (encode : List Byte → List Byte)
    (u : Indeterminate) (m : Memory) (raw : List Byte)
    (h : codec.Decodes (encode raw) raw) :
    ∃ m1 d, fromBase64 codec u m (.string (encode raw)) = .ok (m1, d) ∧
      d.bytes m1 = some raw := by
  obtain ⟨_, hlen, _, _, hdst⟩ := h
  obtain ⟨m1, d, hr, hb⟩ :=
    fromBase64_bytes codec u m (encode raw) raw.length hlen (by rw [hdst])
  exact ⟨m1, d, hr, by rw [hb, hdst]⟩

/-- Witness for C2: the reference codec and encoder on the PNG signature. -/
theorem fromBase64_roundtrip_witness :
    ∃ m1 d, fromBase64 skBase64 ⟨fun _ => 0⟩ ⟨[]⟩
        (.string (encodeBase64 [137, 80, 78, 71, 13, 10, 26, 10])) = .ok (m1, d) ∧
      d.bytes m1 = some [137, 80, 78, 71, 13, 10, 26, 10] :=
  fromBase64_roundtrip skBase64 encodeBase64 ⟨fun _ => 0⟩ ⟨[]⟩
    [137, 80, 78, 71, 13, 10, 26, 10]
    (skBase64_decodes_encodeBase64 [137, 80, 78, 71, 13, 10, 26, 10] (by decide))

/-- Counterexample to C3 as stated: on the text `!!!!` the reference codec
reports `kBadCharError` in both passes and stores no length, and `fromBase64`
does not fail with an error thrown to the caller: it drops the status and
goes on to read `len`, which nothing has initialised. -/
theorem fromBase64_invalid_counterexample :
    (skBase64.Decode (ascii "!!!!") (ascii "!!!!").length true).error = .kBadCharError ∧
    (skBase64.Decode (ascii "!!!!") (ascii "!!!!").length false).error = .kBadCharError ∧
    (skBase64.Decode (ascii "!!!!") (ascii "!!!!").length true).dstLength = none ∧
    fromBase64 skBase64 ⟨fun _ => 170⟩ ⟨[]⟩ (.string (ascii "!!!!"))
      = .error .undefinedBehaviour ∧
    ∀ e, fromBase64 skBase64 ⟨fun _ => 170⟩ ⟨[]⟩ (.string (ascii "!!!!"))
      ≠ .error (.jsError e) := by
  refine ⟨by decide, by decide, by decide, rfl, ?_⟩
  intro e h
  have h2 : fromBase64 skBase64 ⟨fun _ => 170⟩ ⟨[]⟩ (.string (ascii "!!!!"))
      = .error .undefinedBehaviour := rfl
  rw [h2] at h
  cases h

/-- C3, amended: for every string, also one for which the decoder reports an
error, `fromBase64` drops the status of both `Decode` calls: it throws no
error to the caller, and what it does is the same whatever status the decoder
reports. -/
theorem fromBase64_status_dropped (codec : SkBase64)
    (status : List Byte → Nat → Bool → SkBase64.Error) (u : Indeterminate) (m : Memory)
    (s : List Byte) :
    fromBase64 (codec.withStatus status) u m (.string s) = fromBase64 codec u m (.string s) ∧
    ∀ e, fromBase64 codec u m (.string s) ≠ .error (.jsError e) := by
  constructor
  · simp [fromBase64, SkBase64.withStatus]
  · intro e
    simp only [fromBase64, Value.asString]
    split
    · simp
    · split <;> simp

/-! ## fromURI -/

/-- Counterexample to C4 as stated.  For a locator whose stream cannot be
opened (the callback is never invoked) the promise is created and never
settled; for a locator whose stream opens but cannot be read the promise is
resolved, with a data object wrapping the null pointer.  Neither execution
rejects. -/
theorem fromURI_unavailable_counterexample :
    (∃ m1 events,
      fromURI ⟨fun _ => [], 1⟩ ⟨[]⟩ (.string (ascii "missing.png")) = .ok (m1, events) ∧
      events = [.createPromise .javascript,
        .performStreamOperation .javascript (ascii "missing.png")] ∧
      settlements events = 0 ∧ rejections events = 0) ∧
    (∃ m1 events,
      fromURI ⟨fun _ => [brokenStream 8], 1⟩ ⟨[]⟩ (.string (ascii "broken.png")) = .ok (m1, events) ∧
      events = [.createPromise .javascript,
        .performStreamOperation .javascript (ascii "broken.png"),
        .MakeFromStream .worker none, .runOnJavascriptThread .worker,
        .createFromHostObject .javascript ⟨none⟩, .resolve .javascript ⟨none⟩] ∧
      settlements events = 1 ∧ rejections events = 0) := by
  refine ⟨⟨_, _, rfl, by decide, by decide, by decide⟩,
    ⟨_, _, rfl, by decide, by decide, by decide⟩⟩

/-- C4, amended: for every locator whose stream cannot be opened (the stream
collaborator never invokes the callback), `fromURI` returns its promise and
performs no settlement of it at all, so no rejection; indeed no execution of
`fromURI`, for any locator, performs a rejection. -/
theorem fromURI_unopened_never_rejects (context : RNSkPlatformContext) (m : Memory)
    (uri : List Byte) (h : context.performStreamOperation uri = []) :
    (∃ m1 events, fromURI context m (.string uri) = .ok (m1, events) ∧
      events = [.createPromise .javascript, .performStreamOperation .javascript uri] ∧
      settlements events = 0) ∧
    (∀ (m0 : Memory) (uri0 : List Byte),
      ∃ m1 events, fromURI context m0 (.string uri0) = .ok (m1, events) ∧
        rejections events = 0) := by
  constructor
  · refine ⟨_, _, fromURI_string context m uri, ?_, ?_⟩
    · simp [h, streamOperations]
    · rw [settlements_fromURI_events, settlements_streamOperations, h]
      simp
  · intro m0 uri0
    refine ⟨_, _, fromURI_string context m0 uri0, ?_⟩
    rw [rejections_fromURI_events, rejections_streamOperations]

/-- Witness for C4, amended: a context that opens no stream. -/
theorem fromURI_unopened_never_rejects_witness :
    (∃ m1 events,
      fromURI ⟨fun _ => [], 1⟩ ⟨[]⟩ (.string (ascii "missing.png")) = .ok (m1, events) ∧
      events = [.createPromise .javascript,
        .performStreamOperation .javascript (ascii "missing.png")] ∧
      settlements events = 0) ∧
    (∀ (m0 : Memory) (uri0 : List Byte),
      ∃ m1 events, fromURI ⟨fun _ => [], 1⟩ m0 (.string uri0) = .ok (m1, events) ∧
        rejections events = 0) :=
  fromURI_unopened_never_rejects ⟨fun _ => [], 1⟩ ⟨[]⟩ (ascii "missing.png") rfl

/-- C5: in every execution of `fromURI` in which the stream collaborator
invokes the callback once and the hand-off runs the posted closure once, the
promise is settled exactly once. -/
theorem fromURI_settles_once (context : RNSkPlatformContext) (m : Memory) (uri : List Byte)
    (h1 : (context.performStreamOperation uri).length = 1)
    (h2 : context.runOnJavascriptThread = 1) :
    ∃ m1 events, fromURI context m (.string uri) = .ok (m1, events) ∧
      settlements events = 1 := by
  refine ⟨_, _, fromURI_string context m uri, ?_⟩
  rw [settlements_fromURI_events, settlements_streamOperations, h1, h2]

/-- Witness for C5: a context that delivers one stream over the PNG signature
and runs posted closures once. -/
theorem fromURI_settles_once_witness :
    ∃ m1 events,
      fromURI ⟨fun _ => [memoryStream [137, 80, 78, 71, 13, 10, 26, 10]], 1⟩ ⟨[]⟩
        (.string (ascii "a.png")) = .ok (m1, events) ∧
      settlements events = 1 :=
  fromURI_settles_once ⟨fun _ => [memoryStream [137, 80, 78, 71, 13, 10, 26, 10]], 1⟩ ⟨[]⟩
    (ascii "a.png") rfl rfl

/-- C6: in every execution of `fromURI`, every wrapping of the buffer into a
host object and every resolution of the promise is performed on the
JavaScript thread; and the stream callback itself, on whatever thread it
runs, performs neither when the hand-off does not run the closure. -/
theorem fromURI_wraps_on_javascript_thread (context : RNSkPlatformContext) (m : Memory)
    (uri : List Byte) :
    (∃ m1 events, fromURI context m (.string uri) = .ok (m1, events) ∧
      ∀ e ∈ events, (e.isWrap = true ∨ e.isResolve = true) → e.thread = .javascript) ∧
    (∀ (t : Thread) (m0 : Memory) (stream : SkStreamAsset),
      ∀ e ∈ (streamCallback ⟨context.performStreamOperation, 0⟩ t m0 stream).2,
        e.isWrap = false ∧ e.isResolve = false) := by
  constructor
  · refine ⟨_, _, fromURI_string context m uri, ?_⟩
    intro e he h
    simp only [List.mem_append, List.mem_cons, List.mem_singleton, List.not_mem_nil,
      or_false] at he
    rcases he with (rfl | rfl) | he
    · rfl
    · rfl
    · exact thread_streamOperations context m _ e he h
  · intro t m0 stream e he
    simp only [streamCallback, List.replicate_zero, List.flatten_nil, List.append_nil,
      List.mem_cons, List.mem_singleton, List.not_mem_nil, or_false] at he
    rcases he with rfl | rfl <;> exact ⟨rfl, rfl⟩

/-- Counterexample to C9 as stated: a stream that opens (the callback is
invoked with it) and announces 8 bytes, of which the read delivers none.  No
buffer of 8 bytes is made: `MakeFromStream` returns the null pointer, memory
is unchanged, and the promise is resolved with a data object that wraps the
null pointer. -/
theorem fromURI_short_read_counterexample :
    (brokenStream 8).getLength = 8 ∧
    ∃ m1 events,
      fromURI ⟨fun _ => [brokenStream 8], 1⟩ ⟨[]⟩ (.string (ascii "a.png")) = .ok (m1, events) ∧
      m1 = ⟨[]⟩ ∧
      events = [.createPromise .javascript,
        .performStreamOperation .javascript (ascii "a.png"),
        .MakeFromStream .worker none, .runOnJavascriptThread .worker,
        .createFromHostObject .javascript ⟨none⟩, .resolve .javascript ⟨none⟩] ∧
      JsiSkData.bytes m1 ⟨none⟩ = none := by
  refine ⟨rfl, _, _, rfl, by decide, by decide, rfl⟩

/-- C9, amended: for every locator whose stream opens and can be read in full (one
delivery, closure run once), `fromURI` hands the locator string unchanged to
`performStreamOperation`, reads the stream into a new buffer of exactly
`getLength` bytes holding the stream's content, and resolves the promise with
a data object wrapping that same buffer: read on the worker thread, then
wrap, then resolve. -/
theorem fromURI_read_wrap_resolve (context : RNSkPlatformContext) (m : Memory)
    (uri : List Byte) (stream : SkStreamAsset)
    (h1 : context.performStreamOperation uri = [stream])
    (h2 : (stream.read stream.getLength).length = stream.getLength)
    (h3 : context.runOnJavascriptThread = 1) :
    ∃ m1, fromURI context m (.string uri)
        = .ok (m1, [.createPromise .javascript, .performStreamOperation .javascript uri,
            .MakeFromStream .worker (some m.blocks.length), .runOnJavascriptThread .worker,
            .createFromHostObject .javascript ⟨some m.blocks.length⟩,
            .resolve .javascript ⟨some m.blocks.length⟩]) ∧
      m1.data m.blocks.length = stream.read stream.getLength ∧
      m1.size m.blocks.length = stream.getLength := by
  have htake : List.take stream.getLength (stream.read stream.getLength)
      = stream.read stream.getLength := List.take_of_length_le (Nat.le_of_eq h2)
  refine ⟨(m.alloc (stream.read stream.getLength)).1, ?_, ?_, ?_⟩
  · rw [fromURI_string, h1]
    simp [streamOperations, streamCallback, SkData.MakeFromStream, resolveClosure, h2, h3,
      htake, Memory.alloc]
  · exact Memory.data_alloc_new m _
  · simp [Memory.size, Memory.alloc, Memory.data, h2]

/-- Witness for C9: a context that delivers one stream over the PNG
signature and runs posted closures once. -/
theorem fromURI_read_wrap_resolve_witness :
    ∃ m1, fromURI ⟨fun _ => [memoryStream [137, 80, 78, 71, 13, 10, 26, 10]], 1⟩ ⟨[]⟩
          (.string (ascii "a.png"))
        = .ok (m1, [.createPromise .javascript, .performStreamOperation .javascript (ascii "a.png"),
            .MakeFromStream .worker (some 0), .runOnJavascriptThread .worker,
            .createFromHostObject .javascript ⟨some 0⟩,
            .resolve .javascript ⟨some 0⟩]) ∧
      m1.data 0 = [137, 80, 78, 71, 13, 10, 26, 10] ∧
      m1.size 0 = 8 :=
  fromURI_read_wrap_resolve ⟨fun _ => [memoryStream [137, 80, 78, 71, 13, 10, 26, 10]], 1⟩ ⟨[]⟩
    (ascii "a.png") (memoryStream [137, 80, 78, 71, 13, 10, 26, 10]) rfl rfl rfl

end RNSkia
